import Mathlib

/-!
Shallow embedding of the maia CLI client (pkg/cmd/client.go) and of the
Prometheus storage driver (pkg/storage/prometheus.go), together with proofs
about the behaviour the design document ascribes to them.

Conventions of the embedding:
* Go `time.Duration` values and absolute instants are modelled as integer
  nanosecond counts (`Nat` / `Int`); instants count nanoseconds since the
  Unix epoch, exactly like the wall-clock reading of a Go `time.Time`.
* Go maps that are only ever read through key lookup are modelled as
  functions `String → Option String`; Go "set" maps (`map[string]bool`)
  are modelled as duplicate-free `List String` accumulators.
* External library calls (JSON unmarshalling, keystone `Authenticate`,
  Go-template execution) are kept abstract: the embedded functions receive
  the decoder as an explicit argument or stop at the call boundary, just as
  the design document treats them as opaque capabilities.
-/

namespace Maia

/-! ## Step-size auto-selection (cmd/client.go, `Query`, lines 591–626) -/

/-- Nanoseconds per second, the unit conversion used by `time.Duration`. -/
def nsPerSecond : Nat := 1000000000

/-- The fixed ascending ladder of candidate step sizes from `Query`
(client.go lines 614–618), in nanoseconds: 15s, 30s, 60s, 90s, 2m, 3m, 5m,
10m, 15m, 20m, 30m, 1h, 2h, 3h, 8h, 12h, 24h, 2d, 3d, 7d, 14d, 30d. -/
def stepLadder : List Nat :=
  [15, 30, 60, 90,
   2 * 60, 3 * 60, 5 * 60, 10 * 60, 15 * 60, 20 * 60, 30 * 60,
   3600, 2 * 3600, 3 * 3600, 8 * 3600, 12 * 3600, 24 * 3600,
   2 * 24 * 3600, 3 * 24 * 3600, 7 * 24 * 3600, 14 * 24 * 3600,
   30 * 24 * 3600].map (· * nsPerSecond)

/-- The `for`-loop of `Query` (client.go lines 619–624): replace `sz` by the
first ladder entry strictly greater than it, leaving it unchanged when no
entry qualifies. -/
def autoStepNs (szNs : Nat) : Nat :=
  match stepLadder.find? (fun s => decide (szNs < s)) with
  | some s => s
  | none => szNs

/-- Function modelling `Query`'s step defaulting (client.go lines 611–625) for a range query
without an explicit step: `sz := (end − start) / 10` on durations, run the
ladder loop, then render as whole seconds with an `s` suffix
(`fmt.Sprintf("%ds", int(sz.Seconds()))`).  `startNs`/`endNs` are the parsed
start/end instants in nanoseconds since the Unix epoch. -/
def defaultStepStr (startNs endNs : Nat) : String :=
  let sz := (endNs - startNs) / 10
  toString (autoStepNs sz / nsPerSecond) ++ "s"

/-! ## Credential resolution (cmd/client.go, `fetchToken`, lines 59–160)

`gophercloud.AuthOptions` and `gophercloud.AuthScope` are embedded field by
field; only the fields `fetchToken` touches or forwards are kept.  The
keystone `Authenticate` network call is the external boundary: `fetchToken`
is modelled up to, but not including, that call, and its outcome records
which continuation the Go code takes. -/

/-- Structure embedding `gophercloud.AuthScope` (the fields the CLI wires up, client.go
lines 746–750). -/
structure AuthScope where
  projectName : String
  projectID : String
  domainName : String
  domainID : String
  deriving DecidableEq, Repr

/-- Structure embedding `gophercloud.AuthOptions`, restricted to the fields read or written by
`fetchToken`.  `scope` is an `Option` because the Go field is a pointer that
`fetchToken` sets to `nil` for application credentials (client.go line 136);
it is initialised non-nil by the CLI (client.go line 37). -/
structure AuthOptions where
  identityEndpoint : String
  username : String
  userID : String
  password : String
  domainID : String
  domainName : String
  tokenID : String
  applicationCredentialName : String
  applicationCredentialID : String
  applicationCredentialSecret : String
  scope : Option AuthScope
  deriving DecidableEq, Repr

/-- The environment variables `fetchToken` reads when expanding the
`$OS_...` placeholder default values (client.go lines 65–73). -/
structure Env where
  osPassword : String
  osToken : String
  osApplicationCredentialSecret : String
  deriving DecidableEq, Repr

/-- The package-level command state consumed by `fetchToken`:
`auth`, `maiaURL`, `scopedDomain` and `authType` (client.go lines 35–45). -/
structure ClientState where
  auth : AuthOptions
  maiaURL : String
  scopedDomain : String
  authType : String
  deriving DecidableEq, Repr

/-- The `switch authType` block of `fetchToken` (client.go lines 89–137):
per-scheme mandatory-field checks and clearing of the other schemes'
fields.  An `error` is a `ConfigurationError` message raised by `panic` in
the Go code.  A scheme name outside the three cases falls through the
switch unchanged, as in Go. -/
def schemeNormalize (authType : String) (a : AuthOptions) : Except String AuthOptions :=
  if authType = "password" then
    if a.password = "" then
      .error "you must specify --os-password"
    else if a.username = "" ∧ a.userID = "" then
      .error "you must specify --os-username or --os-user-id"
    else
      .ok { a with tokenID := "", applicationCredentialName := "",
                   applicationCredentialID := "", applicationCredentialSecret := "" }
  else if authType = "token" then
    if a.tokenID = "" then
      .error "you must specify --os-token"
    else
      .ok { a with password := "", userID := "", username := "",
                   domainID := "", domainName := "",
                   applicationCredentialName := "",
                   applicationCredentialID := "", applicationCredentialSecret := "" }
  else if authType = "v3applicationcredential" then
    if a.applicationCredentialSecret = "" then
      .error "you must specify --os-application-credential-secret"
    else if a.applicationCredentialName ≠ "" ∧ a.username = "" ∧ a.userID = "" then
      .error "you must specify --os-username or --os-user-id when using --os-application-credential-name"
    else
      let b := if a.applicationCredentialID ≠ "" then
          { a with userID := "", username := "", domainID := "", domainName := "" }
        else a
      .ok { b with password := "", tokenID := "", scope := none }
  else
    .ok a

/-- The cross-scheme ambiguity checks of `fetchToken` (client.go
lines 139–148), run on the already scheme-normalized options. -/
def ambiguityChecks (a : AuthOptions) : Except String AuthOptions :=
  if a.userID ≠ "" ∧ a.username ≠ "" then
    .error "use either --os-user-id or --os-user-name but not both"
  else if a.domainID ≠ "" ∧ a.domainName ≠ "" then
    .error "use either --os-user-domain-id or --os-user-domain-name but not both"
  else if a.userID ≠ "" ∧ (a.domainID ≠ "" ∨ a.domainName ≠ "") then
    .error "do not specify --os-user-domain-id or --os-user-domain-name when using --os-user-id since the user ID implies the domain"
  else
    .ok a

/-- The whole validation/normalization block of `fetchToken` (client.go
lines 89–148): the scheme switch followed by the ambiguity checks. -/
def normalizeAuth (authType : String) (a : AuthOptions) : Except String AuthOptions :=
  (schemeNormalize authType a).bind ambiguityChecks

/-- The prelude of `fetchToken` (client.go lines 60–73): copy the
`--os-domain-name` scope flag into the scope and expand the `$OS_...`
placeholder defaults from the environment. -/
def expandAuth (env : Env) (st : ClientState) : AuthOptions :=
  let a := st.auth
  let a := if st.scopedDomain ≠ "" then
      { a with scope := a.scope.map (fun s => { s with domainName := st.scopedDomain }) }
    else a
  let a := if a.password = "$OS_PASSWORD" then { a with password := env.osPassword } else a
  let a := if a.tokenID = "$OS_TOKEN" then { a with tokenID := env.osToken } else a
  let a := if a.applicationCredentialSecret = "$OS_APPLICATION_CREDENTIAL_SECRET" then
      { a with applicationCredentialSecret := env.osApplicationCredentialSecret }
    else a
  a

/-- The scheme selector default (client.go lines 82–85): an empty
`--os-auth-type` falls back to `"password"`. -/
def defaultAuthType (authType : String) : String :=
  if authType = "" then "password" else authType

/-- Which continuation `fetchToken` takes.  `fastPath` is the early return
of client.go lines 77–79 (no validation, no keystone call); `configError`
is a `ConfigurationError` `panic` raised before any network call;
`authenticate` means control reached the keystone `Authenticate` call on
client.go line 151 with the recorded normalized state. -/
inductive FetchOutcome where
  | fastPath (st : ClientState)
  | configError (st : ClientState) (msg : String)
  | authenticate (st : ClientState)
  deriving DecidableEq, Repr

/-- Whether an outcome is a `ConfigurationError`. -/
def FetchOutcome.isConfigError : FetchOutcome → Bool
  | .configError _ _ => true
  | _ => false

/-- Function modelling `fetchToken` (client.go lines 59–151) up to the keystone `Authenticate`
boundary: prelude, fast path, scheme defaulting, normalisation and
ambiguity checks. -/
def fetchToken (env : Env) (st : ClientState) : FetchOutcome :=
  if (expandAuth env st).tokenID ≠ "" ∧ st.maiaURL ≠ "" then
    .fastPath { st with auth := expandAuth env st }
  else
    match normalizeAuth (defaultAuthType st.authType) (expandAuth env st) with
    | .error msg =>
      .configError { st with auth := expandAuth env st,
                             authType := defaultAuthType st.authType } msg
    | .ok a' => .authenticate { st with auth := a', authType := defaultAuthType st.authType }

/-! ## Time arithmetic and RFC 3339 rendering

Models the Go standard-library calls used by the renderer:
`time.Time.Truncate`, `time.Time.In` with a fixed-offset location, and
`Format` with the `time.RFC3339` / `time.RFC3339Nano` layouts.  Instants
are nanoseconds since the Unix epoch (`Int`), zones are whole-second UTC
offsets. -/

/-- Nanoseconds between Go's zero `Time` (January 1, year 1 UTC) and the
Unix epoch; Go's `unixToInternal` constant scaled to nanoseconds.
`Time.Truncate` rounds down to a multiple of `d` since the zero time. -/
def unixToInternalNs : Int := 62135596800 * 1000000000

/-- Go `time.Time.Truncate`: round the instant down to a multiple of `dNs`
since the zero time; a non-positive duration leaves it unchanged. -/
def truncateTime (dNs tNs : Int) : Int :=
  if dNs ≤ 0 then tNs else tNs - (tNs + unixToInternalNs) % dNs

/-- Proleptic-Gregorian civil date `(year, month, day)` of a day number
counted from 1970-01-01 (the era decomposition used by Go's date
conversion). -/
def civilFromDays (z : Int) : Int × Int × Int :=
  let z := z + 719468
  let era := Int.fdiv z 146097
  let doe := z - era * 146097
  let yoe := Int.fdiv (doe - Int.fdiv doe 1460 + Int.fdiv doe 36524 - Int.fdiv doe 146096) 365
  let y := yoe + era * 400
  let doy := doe - (365 * yoe + Int.fdiv yoe 4 - Int.fdiv yoe 100)
  let mp := Int.fdiv (5 * doy + 2) 153
  let d := doy - Int.fdiv (153 * mp + 2) 5 + 1
  let m := mp + (if mp < 10 then 3 else -9)
  (y + (if m ≤ 2 then 1 else 0), m, d)

/-- Two-digit zero-padded decimal. -/
def pad2 (n : Int) : String :=
  if n < 10 then "0" ++ toString n else toString n

/-- Four-digit zero-padded decimal (years). -/
def pad4 (n : Int) : String :=
  if n < 10 then "000" ++ toString n
  else if n < 100 then "00" ++ toString n
  else if n < 1000 then "0" ++ toString n
  else toString n

/-- RFC 3339 zone suffix for a fixed offset: `Z` for UTC, else `±HH:MM`. -/
def zoneSuffix (offsetSec : Int) : String :=
  if offsetSec = 0 then "Z"
  else
    let mag := offsetSec.natAbs
    (if 0 < offsetSec then "+" else "-") ++
      pad2 (mag / 3600 : Nat) ++ ":" ++ pad2 (mag % 3600 / 60 : Nat)

/-- The `YYYY-MM-DDTHH:MM:SS` clock part of an instant viewed in a
fixed-offset zone. -/
def formatClock (offsetSec tNs : Int) : String :=
  let secs := Int.fdiv tNs 1000000000 + offsetSec
  let days := Int.fdiv secs 86400
  let sod := secs - days * 86400
  let ymd := civilFromDays days
  pad4 ymd.1 ++ "-" ++ pad2 ymd.2.1 ++ "-" ++ pad2 ymd.2.2 ++ "T" ++
    pad2 (Int.fdiv sod 3600) ++ ":" ++ pad2 (Int.fdiv sod 60 % 60) ++ ":" ++
    pad2 (sod % 60)

/-- Go `t.In(loc).Format(time.RFC3339)` for a fixed-offset location. -/
def formatRFC3339 (offsetSec tNs : Int) : String :=
  formatClock offsetSec tNs ++ zoneSuffix offsetSec

/-- The fractional-second part of the `time.RFC3339Nano` layout: up to nine
digits with trailing zeros (and an all-zero fraction) removed. -/
def fracNano (tNs : Int) : String :=
  let f := (tNs % 1000000000).toNat
  if f = 0 then ""
  else
    let digits := Nat.toDigits 10 f
    let padded := List.replicate (9 - digits.length) '0' ++ digits
    "." ++ String.mk ((padded.reverse.dropWhile (· = '0')).reverse)

/-- Go `t.In(loc).Format(time.RFC3339Nano)` for a fixed-offset location. -/
def formatRFC3339Nano (offsetSec tNs : Int) : String :=
  formatClock offsetSec tNs ++ fracNano tNs ++ zoneSuffix offsetSec

/-- Conversion of `model.Time`: it carries milliseconds since the epoch; `Time()` converts to
a nanosecond instant. -/
def msToNs (ms : Int) : Int := ms * 1000000

/-! ## Result rendering (cmd/client.go, lines 199–453)

Label sets (`model.LabelSet` / `model.Metric`) are association lists; the
per-row Go maps are modelled as lookup functions built by repeated insert
(later inserts win, like Go map assignment); Go set maps are duplicate-free
list accumulators.  `model.SampleValue.String()` (float rendering) is the
external library boundary: samples carry their already-rendered value
string. -/

/-- Reserved column name for timestamps (client.go line 31). -/
def timestampKey : String := "__timestamp__"

/-- Reserved column name for values (client.go line 32). -/
def valueKey : String := "__value__"

/-- A `model.LabelSet`: label name/value pairs. -/
abbrev LabelSet := List (String × String)

/-- Adding one key to a Go `map[string]bool` set. -/
def setInsert (s : List String) (k : String) : List String :=
  if k ∈ s then s else s ++ [k]

/-- Function modelling `collectKeys` (client.go lines 341–346): add all label names of a label
set to the collector set. -/
def collectKeys (collector : List String) (input : LabelSet) : List String :=
  input.foldl (fun c kv => setInsert c kv.1) collector

/-- Function modelling `makeColumns` (client.go lines 348–356): the collector set as a sorted
column list (`sort.Strings`). -/
def makeColumns (collector : List String) : List String :=
  collector.insertionSort (· ≤ ·)

/-- Function modelling `extractSeriesColumns` (client.go lines 332–339). -/
def extractSeriesColumns (table : List LabelSet) : List String :=
  makeColumns (table.foldl collectKeys [])

/-- Function modelling `buildColumnSet` (client.go lines 299–315): the explicit `--columns`
list when given, else the union of the label names of all elements. -/
def buildColumnSet (columns : String) (metrics : List LabelSet) : List String :=
  if columns ≠ "" then (columns.splitOn ",").foldl setInsert []
  else metrics.foldl collectKeys []

/-- The empty row map. -/
def emptyRow : String → Option String := fun _ => none

/-- Go map assignment `row[k] = v`. -/
def rowInsert (m : String → Option String) (k v : String) : String → Option String :=
  fun q => if q = k then some v else m q

/-- Copy a label set into a row map, label by label. -/
def rowOfLabels (kvs : LabelSet) (m : String → Option String) : String → Option String :=
  kvs.foldl (fun m kv => rowInsert m kv.1 kv.2) m

/-- Model of `strings.ToLower` on the ASCII format names compared here, modelled
character-wise. -/
def strToLower (s : String) : String := String.mk (s.data.map Char.toLower)

/-- Model of `strings.HasPrefix`. -/
def strHasPrefix (s pre : String) : Bool := pre.data.isPrefixOf s.data

/-- Model of `strings.EqualFold` on the ASCII format names compared here:
case-insensitive equality. -/
def eqFold (s t : String) : Bool := strToLower s = strToLower t

/-- Function modelling `printRow` (client.go lines 358–368): one output line; fields joined by
the separator, a column missing from the row printing as an empty field. -/
def printRow (sep : String) (allColumns : List String) (rec : String → Option String) : String :=
  String.intercalate sep (allColumns.map (fun c => (rec c).getD ""))

/-- Function modelling `printHeader` (client.go lines 318–328): the header line, suppressed
for the `value` output format. -/
def printHeader (outputFormat sep : String) (allColumns : List String) : List String :=
  if eqFold outputFormat "value" then [] else [String.intercalate sep allColumns]

/-- Function modelling `timeColumnFromTS` (client.go lines 382–384): the column name for a
sample timestamp — truncated down to the step size, then rendered as
RFC 3339 in the configured time zone. -/
def timeColumnFromTS (stepNs offsetSec tNs : Int) : String :=
  formatRFC3339 offsetSec (truncateTime stepNs tNs)

/-- One element of a `model.Vector`: labels, a millisecond timestamp and
the rendered sample value. -/
structure VectorElem where
  metric : LabelSet
  timestampMs : Int
  value : String
  deriving DecidableEq, Repr

/-- One `(timestamp, value)` sample of a matrix series. -/
structure SamplePair where
  timestampMs : Int
  value : String
  deriving DecidableEq, Repr

/-- One series of a `model.Matrix`. -/
structure MatrixSeries where
  metric : LabelSet
  values : List SamplePair
  deriving DecidableEq, Repr

/-- The decoded `model.Value` of a query response (scalar, instant vector
or range matrix). -/
inductive QueryValue where
  | scalar (timestampMs : Int) (value : String)
  | vector (elems : List VectorElem)
  | matrix (series : List MatrixSeries)
  deriving DecidableEq, Repr

/-- The row map of one vector element (client.go lines 426–435): the
reserved timestamp and value entries, then the labels. -/
def vectorRow (offsetSec : Int) (el : VectorElem) : String → Option String :=
  rowOfLabels el.metric
    (rowInsert
      (rowInsert emptyRow timestampKey (formatRFC3339Nano offsetSec (msToNs el.timestampMs)))
      valueKey el.value)

/-- The column list of the vector branch (client.go lines 425–442): the
explicit `--columns` list or the sorted union of all label names, with the
two reserved columns appended. -/
def vectorAllColumns (columns : String) (elems : List VectorElem) : List String :=
  let set := elems.foldl (fun s el => collectKeys s el.metric)
    (buildColumnSet columns (elems.map (·.metric)))
  (if columns ≠ "" then columns.splitOn "," else makeColumns set) ++ [timestampKey, valueKey]

/-- The vector branch of `printQueryResultAsTable`: columns and one row per
element. -/
def vectorTable (columns : String) (offsetSec : Int) (elems : List VectorElem) :
    List String × List (String → Option String) :=
  (vectorAllColumns columns elems, elems.map (vectorRow offsetSec))

/-- One iteration of the matrix loop (client.go lines 404–415): build the
series row from its labels and samples while accumulating the set of
truncated timestamp columns. -/
def matrixFold (stepNs offsetSec : Int)
    (acc : List String × List (String → Option String)) (el : MatrixSeries) :
    List String × List (String → Option String) :=
  let row0 := rowOfLabels el.metric emptyRow
  let p := el.values.foldl
    (fun (p : List String × (String → Option String)) v =>
      let s := timeColumnFromTS stepNs offsetSec (msToNs v.timestampMs)
      (setInsert p.1 s, rowInsert p.2 s v.value))
    (acc.1, row0)
  (p.1, acc.2 ++ [p.2])

/-- The matrix branch of `printQueryResultAsTable` (client.go
lines 399–422): label columns (explicit or sorted union) followed by the
sorted truncated-timestamp columns, and one row per series. -/
def matrixTable (columns : String) (stepNs offsetSec : Int) (m : List MatrixSeries) :
    List String × List (String → Option String) :=
  let set := buildColumnSet columns (m.map (·.metric))
  let p := m.foldl (matrixFold stepNs offsetSec) ([], [])
  ((if columns ≠ "" then columns.splitOn "," else makeColumns set) ++ makeColumns p.1,
   p.2)

/-- The scalar branch of `printQueryResultAsTable` (client.go
lines 443–446). -/
def scalarTable (offsetSec tsMs : Int) (v : String) :
    List String × List (String → Option String) :=
  ([timestampKey, valueKey],
   [rowInsert (rowInsert emptyRow timestampKey (formatRFC3339Nano offsetSec (msToNs tsMs)))
      valueKey v])

/-- Function modelling `printQueryResultAsTable` (client.go lines 386–453) on an already
decoded query value: dispatch on the result type, print the header (unless
the format is `value`) and then every row. -/
def printQueryResultAsTable (outputFormat columns sep : String) (stepNs offsetSec : Int)
    (v : QueryValue) : List String :=
  let p := match v with
    | .matrix m => matrixTable columns stepNs offsetSec m
    | .vector elems => vectorTable columns offsetSec elems
    | .scalar ts val => scalarTable offsetSec ts val
  printHeader outputFormat sep p.1 ++ p.2.map (printRow sep p.1)

/-- The `storage.JSON` content-type constant.  Its defining file is not in
the excerpt; the repository's tests pin it to `application/json`. -/
def storageJSON : String := "application/json"

/-- Function modelling `printValues` (client.go lines 202–238) after the body has been read:
dispatch on content type and output format.  JSON unmarshalling of the
`{"data": [...]}` payload is the external boundary and is passed in as
`parseData`.  The result is the list of printed chunks, or the `panic`
message. -/
def printValues (parseData : String → Except String (List String))
    (contentType outputFormat body : String) : Except String (List String) :=
  if contentType = storageJSON then
    if eqFold outputFormat "json" then .ok [body]
    else if eqFold outputFormat "value" then
      match parseData body with
      | .error e => .error e
      | .ok vs => .ok vs
    else .error ("unsupported --format value for this command: " ++ outputFormat)
  else if strHasPrefix contentType "text/plain" then
    if eqFold outputFormat "value" then .ok [body]
    else .error ("unsupported --format value for this command: " ++ outputFormat)
  else .error ("unsupported response type from server: " ++ contentType)

/-- Function modelling `printTable` (client.go lines 243–294) after the body has been read:
JSON unmarshalling into `[]model.LabelSet` is the external boundary
(`parseTable`).  A plain-text body is passed through verbatim with no
format check (client.go lines 286–288). -/
def printTable (parseTable : String → Except String (List LabelSet))
    (contentType outputFormat columns sep body : String) : Except String (List String) :=
  if contentType = storageJSON then
    if eqFold outputFormat "json" then .ok [body]
    else if eqFold outputFormat "table" ∨ eqFold outputFormat "value" then
      match parseTable body with
      | .error e => .error e
      | .ok table =>
        let allColumns := if columns = "" then extractSeriesColumns table
          else columns.splitOn ","
        .ok (printHeader outputFormat sep allColumns ++
          table.map (fun series => printRow sep allColumns (rowOfLabels series emptyRow)))
    else .error ("unsupported --format value for this command: " ++ outputFormat)
  else if strHasPrefix contentType "text/plain" then
    .ok [body]
  else .error ("unsupported response type from server: " ++ contentType)

/-- Function modelling `printQueryResponse` (client.go lines 455–484) after the body has been
read: only a JSON content type is accepted; the format switch is on the
lower-cased `--format`.  Query-response decoding (`parseQuery`) and Go
template execution (`execTemplate`) are the external boundaries. -/
def printQueryResponse (parseQuery : String → Except String QueryValue)
    (execTemplate : String → String → Except String String)
    (contentType outputFormat jsonTemplate columns sep : String)
    (stepNs offsetSec : Int) (body : String) : Except String (List String) :=
  if contentType = storageJSON then
    if strToLower outputFormat = "json" then .ok [body]
    else if strToLower outputFormat = "template" then
      if jsonTemplate = "" then .error "missing --template parameter"
      else
        match execTemplate jsonTemplate body with
        | .error e => .error e
        | .ok s => .ok [s]
    else if strToLower outputFormat = "table" then
      match parseQuery body with
      | .error e => .error e
      | .ok v => .ok (printQueryResultAsTable outputFormat columns sep stepNs offsetSec v)
    else .error ("unsupported --format value for this command: " ++ outputFormat)
  else .error ("unsupported response type from server: " ++ contentType)

/-! ## Status classification (cmd/client.go, `checkResponse`, lines 653–683) -/

/-- The outcome of `io.ReadAll` on the response body. -/
inductive BodyRead where
  | ok (body : String)
  | readErr (msg : String)
  deriving DecidableEq, Repr

/-- Function modelling `checkResponse` (client.go lines 653–683): `none` means the response
passes (HTTP 200); `some msg` is the `panic` error message.  `global` is
the `useGlobalKeystone` flag; `transportErr` the `err` argument. -/
def checkResponse (global : Bool) (transportErr : Option String)
    (statusCode : Nat) (status : String) (body : BodyRead) : Option String :=
  match transportErr with
  | some e => some e
  | none =>
    if statusCode ≠ 200 then
      if statusCode = 503 then
        match body with
        | .readErr e =>
          if global then
            some ("global keystone backend unavailable (HTTP " ++ toString statusCode ++
              ") - failed to read response body: " ++ e)
          else
            some ("service unavailable (HTTP " ++ toString statusCode ++
              ") - failed to read response body: " ++ e)
        | .ok b =>
          if b.length > 0 then
            if global then some ("global keystone backend unavailable: " ++ b)
            else some ("service unavailable: " ++ b)
          else
            if global then
              some ("global keystone backend unavailable (HTTP " ++ toString statusCode ++ ")")
            else
              some ("service unavailable (HTTP " ++ toString statusCode ++ ")")
      else
        some ("server failed with status: " ++ status ++ " (" ++ toString statusCode ++ ")")
    else none

/-! ## Backend URL construction (storage/prometheus.go, `buildURL`,
lines 114–138) -/

/-- A parameter value of the `map[string]any` passed to `buildURL`: either
a plain string or a string slice (`match[]`). -/
inductive ParamValue where
  | str (s : String)
  | strList (l : List String)
  deriving DecidableEq, Repr

/-- The query-parameter loop of `buildURL` (prometheus.go lines 123–134):
a string parameter is added only when non-empty; a list parameter
contributes one entry per element.  The parameter map is given as an
association list (Go map iteration order is irrelevant to membership). -/
def buildQueryParams (params : List (String × ParamValue)) : List (String × String) :=
  params.flatMap (fun kv =>
    match kv.2 with
    | .str s => if s = "" then [] else [(kv.1, s)]
    | .strList l => l.map (fun s => (kv.1, s)))

/-- The result of `buildURL`: the rewritten path and the collected query
parameters (before `url.Values.Encode`). -/
structure PromURL where
  path : String
  query : List (String × String)
  deriving DecidableEq, Repr

/-- Function modelling `buildURL` (prometheus.go lines 114–138): `/federate` goes to the
federate base URL, everything else to the main one; the parameter map is
filtered into the query string. -/
def buildURL (baseURL federateURL : String) (path : String)
    (params : List (String × ParamValue)) : PromURL :=
  { path := (if path = "/federate" then federateURL else baseURL) ++ path,
    query := buildQueryParams params }

/-- The parameter map of `QueryRange` (prometheus.go lines 70–75). -/
def queryRangeParams (query start endT step timeout : String) :
    List (String × ParamValue) :=
  [("query", .str query), ("start", .str start), ("end", .str endT),
   ("step", .str step), ("timeout", .str timeout)]

/-- The parameter map of `Query` (prometheus.go lines 64–68). -/
def queryParams (query time timeout : String) : List (String × ParamValue) :=
  [("query", .str query), ("time", .str time), ("timeout", .str timeout)]

/-! ## Concrete example inputs used by witnesses and counterexamples -/

/-- An empty environment (no `$OS_...` variables set). -/
def env0 : Env := { osPassword := "", osToken := "", osApplicationCredentialSecret := "" }

/-- An empty scope, as allocated by `new(gophercloud.AuthScope)`. -/
def emptyScope : AuthScope :=
  { projectName := "", projectID := "", domainName := "", domainID := "" }

/-- Credential fields all blank, scope allocated. -/
def blankAuth : AuthOptions :=
  { identityEndpoint := "", username := "", userID := "", password := "",
    domainID := "", domainName := "", tokenID := "",
    applicationCredentialName := "", applicationCredentialID := "",
    applicationCredentialSecret := "", scope := some emptyScope }

/-- Token-scheme input with both `--os-username` and `--os-user-id` set. -/
def c6State : ClientState :=
  { auth := { blankAuth with username := "u", userID := "i", tokenID := "T" },
    maiaURL := "", scopedDomain := "", authType := "token" }

/-- A state with token and Maia URL both known and a scoped domain flag. -/
def c8State : ClientState :=
  { auth := { blankAuth with tokenID := "T" },
    maiaURL := "http://maia.example", scopedDomain := "members", authType := "" }

/-- Token-scheme input used by the C2 witness. -/
def c2Auth : AuthOptions :=
  { blankAuth with username := "u", userID := "", password := "p", tokenID := "T",
                   scope := some { emptyScope with projectID := "12345" } }

/-- Two vector elements with heterogeneous label sets. -/
def vecElems : List VectorElem :=
  [{ metric := [("a", "1"), ("b", "2")], timestampMs := 1499976630781, value := "0" },
   { metric := [("b", "3"), ("c", "4")], timestampMs := 1499976900781, value := "1" }]

/-- One matrix series with two samples 300 s apart (the repository's
`ExampleQuery_rangeValuesTable` fixture times). -/
def matSeries : List MatrixSeries :=
  [{ metric := [("region", "staging")],
     values := [{ timestampMs := 1500754230000, value := "0" },
                { timestampMs := 1500754530000, value := "1" }] }]

/-- The normalization of `c2Auth` under the token scheme. -/
def c2AuthNorm : AuthOptions :=
  { blankAuth with tokenID := "T",
                   scope := some { emptyScope with projectID := "12345" } }

/-- Password-scheme input with both `--os-username` and `--os-user-id`. -/
def pwdBothState : ClientState :=
  { auth := { blankAuth with username := "u", userID := "i", password := "p" },
    maiaURL := "", scopedDomain := "", authType := "password" }

/-- The prelude-expanded credentials of `c8State`: the scoped-domain flag
has been copied into the scope's domain name. -/
def c8Expanded : AuthOptions :=
  { blankAuth with
      tokenID := "T"
      scope := some { emptyScope with domainName := "members" } }

/-- A fast-path state without scoped-domain flag or placeholder values. -/
def c8WitState : ClientState :=
  { auth := { blankAuth with tokenID := "T" },
    maiaURL := "http://maia.example", scopedDomain := "", authType := "" }

/-! ### Basic facts about the ladder loop -/

theorem stepLadder_sorted : stepLadder.Sorted (· < ·) := by
  simp only [stepLadder, nsPerSecond]
  decide

/-- In a strictly sorted list, `find?` of "strictly above `sz`" returns the
least qualifying element. -/
theorem find?_gt_is_least (sz : Nat) :
    ∀ l : List Nat, l.Sorted (· < ·) →
      ∀ r, l.find? (fun s => decide (sz < s)) = some r →
        ∀ s ∈ l, sz < s → r ≤ s := by
  intro l
  induction l with
  | nil => intro _ r hr; simp at hr
  | cons a t ih =>
    intro hsort r hr s hs hlt
    rw [List.mem_cons] at hs
    by_cases ha : sz < a
    · rw [List.find?_cons_of_pos _ (by simpa using ha)] at hr
      cases hr
      rcases hs with rfl | hs
      · exact le_refl _
      · exact le_of_lt ((List.sorted_cons.mp hsort).1 s hs)
    · rw [List.find?_cons_of_neg _ (by simpa using ha)] at hr
      rcases hs with rfl | hs
      · exact absurd hlt ha
      · exact ih (List.sorted_cons.mp hsort).2 r hr s hs hlt

theorem autoStepNs_of_lt_max (szNs : Nat) (h : szNs < 30 * 24 * 3600 * nsPerSecond) :
    autoStepNs szNs ∈ stepLadder ∧ szNs < autoStepNs szNs ∧
      ∀ s ∈ stepLadder, szNs < s → autoStepNs szNs ≤ s := by
  have hmem : (30 * 24 * 3600 * nsPerSecond) ∈ stepLadder := by
    simp only [stepLadder, nsPerSecond]; decide
  have hsome : (stepLadder.find? (fun s => decide (szNs < s))).isSome :=
    List.find?_isSome.mpr ⟨_, hmem, by simpa using h⟩
  unfold autoStepNs
  cases hfind : stepLadder.find? (fun s => decide (szNs < s)) with
  | none => rw [hfind] at hsome; simp at hsome
  | some r =>
    have hrmem := List.mem_of_find?_eq_some hfind
    have hrlt : szNs < r := by simpa using List.find?_some hfind
    exact ⟨hrmem, hrlt, find?_gt_is_least szNs stepLadder stepLadder_sorted r hfind⟩

/-- When no ladder entry exceeds the target, the loop leaves it unchanged. -/
theorem autoStepNs_of_ge_max (szNs : Nat) (h : 30 * 24 * 3600 * nsPerSecond ≤ szNs) :
    autoStepNs szNs = szNs := by
  unfold autoStepNs
  cases hfind : stepLadder.find? (fun s => decide (szNs < s)) with
  | none => rfl
  | some r =>
    have hrmem := List.mem_of_find?_eq_some hfind
    have hrlt : szNs < r := by simpa using List.find?_some hfind
    have hb : ∀ x ∈ stepLadder, x ≤ 30 * 24 * 3600 * nsPerSecond := by
      simp only [stepLadder, nsPerSecond]; decide
    have := hb r hrmem
    omega

/-! ### Facts about credential normalization -/

/-- The ambiguity checks never modify the options: they either fail or
return their input unchanged. -/
theorem ambiguityChecks_ok (a a' : AuthOptions) (h : ambiguityChecks a = .ok a') :
    a' = a := by
  unfold ambiguityChecks at h
  split at h
  · simp at h
  · split at h
    · simp at h
    · split at h
      · simp at h
      · cases h; rfl

/-- Claim C2 — After credential normalization succeeds for any scheme
(password, token, v3applicationcredential), only the selected scheme's
identifying fields are non-empty and every field belonging to the other
schemes is cleared: the password scheme clears the token and all
application-credential fields (keeping a non-empty password and a username
or user id); the token scheme clears password, username, user id, domain
id, domain name and all application-credential fields while preserving the
scope (keeping a non-empty token); the v3applicationcredential scheme
clears password, token and scope (keeping a non-empty secret), and
additionally clears username, user id, domain id and domain name when an
application-credential ID is given. -/
theorem normalizeAuth_scheme_exclusivity (t : String) (a a' : AuthOptions)
    (h : normalizeAuth t a = .ok a') :
    (t = "password" →
      a'.tokenID = "" ∧ a'.applicationCredentialName = "" ∧
      a'.applicationCredentialID = "" ∧ a'.applicationCredentialSecret = "" ∧
      a'.password ≠ "" ∧ (a'.username ≠ "" ∨ a'.userID ≠ "")) ∧
    (t = "token" →
      a'.password = "" ∧ a'.username = "" ∧ a'.userID = "" ∧
      a'.domainID = "" ∧ a'.domainName = "" ∧
      a'.applicationCredentialName = "" ∧ a'.applicationCredentialID = "" ∧
      a'.applicationCredentialSecret = "" ∧ a'.scope = a.scope ∧ a'.tokenID ≠ "") ∧
    (t = "v3applicationcredential" →
      a'.password = "" ∧ a'.tokenID = "" ∧ a'.scope = none ∧
      a'.applicationCredentialSecret ≠ "" ∧
      (a.applicationCredentialID ≠ "" →
        a'.username = "" ∧ a'.userID = "" ∧ a'.domainID = "" ∧ a'.domainName = "")) := by
  unfold normalizeAuth at h
  cases hs : schemeNormalize t a with
  | error e => rw [hs] at h; simp [Except.bind] at h
  | ok a1 =>
    rw [hs] at h
    simp only [Except.bind] at h
    have ha1 : a' = a1 := ambiguityChecks_ok a1 a' h
    subst ha1
    refine ⟨?_, ?_, ?_⟩ <;> intro ht <;> subst ht <;> unfold schemeNormalize at hs
    · rw [if_pos rfl] at hs
      split at hs
      · simp at hs
      · split at hs
        · simp at hs
        · cases hs; simp_all; tauto
    · rw [if_neg (by decide), if_pos rfl] at hs
      split at hs
      · simp at hs
      · cases hs; simp_all
    · rw [if_neg (by decide), if_neg (by decide), if_pos rfl] at hs
      split at hs
      · simp at hs
      · split at hs
        · simp at hs
        · split at hs
          · cases hs; simp_all
          · cases hs; simp_all

/-! ### Set-accumulator and sorting lemmas -/

theorem mem_setInsert (s : List String) (k x : String) :
    x ∈ setInsert s k ↔ x ∈ s ∨ x = k := by
  unfold setInsert
  split
  · next h => exact ⟨Or.inl, fun h' => h'.elim id (fun hx => hx ▸ h)⟩
  · simp

theorem nodup_setInsert (s : List String) (k : String) (h : s.Nodup) :
    (setInsert s k).Nodup := by
  unfold setInsert
  split
  · exact h
  · next hk => simp [List.nodup_append, h, hk]

theorem mem_foldl_setInsert {β : Type} (key : β → String) (l : List β) :
    ∀ (c : List String) (x : String),
      x ∈ l.foldl (fun s b => setInsert s (key b)) c ↔ x ∈ c ∨ ∃ b ∈ l, x = key b := by
  induction l with
  | nil => simp
  | cons b t ih =>
    intro c x
    rw [List.foldl_cons, ih, mem_setInsert]
    constructor
    · rintro ((hc | hk) | ⟨b', hb', hx⟩)
      · exact Or.inl hc
      · exact Or.inr ⟨b, List.mem_cons_self b t, hk⟩
      · exact Or.inr ⟨b', List.mem_cons_of_mem b hb', hx⟩
    · rintro (hc | ⟨b', hb', hx⟩)
      · exact Or.inl (Or.inl hc)
      · rcases List.mem_cons.mp hb' with rfl | hb'
        · exact Or.inl (Or.inr hx)
        · exact Or.inr ⟨b', hb', hx⟩

theorem nodup_foldl_setInsert {β : Type} (key : β → String) (l : List β) :
    ∀ c : List String, c.Nodup → (l.foldl (fun s b => setInsert s (key b)) c).Nodup := by
  induction l with
  | nil => exact fun c h => h
  | cons b t ih => exact fun c h => ih _ (nodup_setInsert _ _ h)

theorem collectKeys_eq_foldl (c : List String) (input : LabelSet) :
    collectKeys c input = input.foldl (fun s kv => setInsert s (Prod.fst kv)) c := rfl

theorem mem_collectKeys (c : List String) (input : LabelSet) (x : String) :
    x ∈ collectKeys c input ↔ x ∈ c ∨ x ∈ input.map Prod.fst := by
  rw [collectKeys_eq_foldl, mem_foldl_setInsert]
  simp [eq_comm]

theorem mem_foldl_collectKeys (ms : List LabelSet) :
    ∀ (c : List String) (x : String),
      x ∈ ms.foldl collectKeys c ↔ x ∈ c ∨ ∃ m ∈ ms, x ∈ m.map Prod.fst := by
  induction ms with
  | nil => simp
  | cons m t ih =>
    intro c x
    rw [List.foldl_cons, ih, mem_collectKeys]
    constructor
    · rintro ((hc | hk) | ⟨m', hm', hx⟩)
      · exact Or.inl hc
      · exact Or.inr ⟨m, List.mem_cons_self m t, hk⟩
      · exact Or.inr ⟨m', List.mem_cons_of_mem m hm', hx⟩
    · rintro (hc | ⟨m', hm', hx⟩)
      · exact Or.inl (Or.inl hc)
      · rcases List.mem_cons.mp hm' with rfl | hm'
        · exact Or.inl (Or.inr hx)
        · exact Or.inr ⟨m', hm', hx⟩

theorem nodup_foldl_collectKeys (ms : List LabelSet) :
    ∀ c : List String, c.Nodup → (ms.foldl collectKeys c).Nodup := by
  induction ms with
  | nil => exact fun c h => h
  | cons m t ih =>
    intro c h
    refine ih _ ?_
    rw [collectKeys_eq_foldl]
    exact nodup_foldl_setInsert _ _ _ h

theorem makeColumns_sorted (c : List String) : (makeColumns c).Sorted (· ≤ ·) :=
  List.sorted_insertionSort _ c

theorem mem_makeColumns (c : List String) (x : String) :
    x ∈ makeColumns c ↔ x ∈ c :=
  (List.perm_insertionSort _ c).mem_iff

theorem nodup_makeColumns (c : List String) (h : c.Nodup) : (makeColumns c).Nodup :=
  ((List.perm_insertionSort _ c).nodup_iff).mpr h

theorem rowOfLabels_not_mem (kvs : LabelSet) :
    ∀ (m : String → Option String) (k : String),
      (∀ v, (k, v) ∉ kvs) → rowOfLabels kvs m k = m k := by
  induction kvs with
  | nil => intro m k _; rfl
  | cons kv t ih =>
    intro m k h
    have hstep : rowOfLabels (kv :: t) m = rowOfLabels t (rowInsert m kv.1 kv.2) := rfl
    rw [hstep, ih _ _ (fun v hv => h v (List.mem_cons_of_mem _ hv))]
    unfold rowInsert
    rw [if_neg]
    intro he
    exact h kv.2 (by rw [he]; exact List.mem_cons_self _ _)

/-! ### Claim theorems: step selection -/

/-- Claim C1 — For every range query where no explicit step size is given,
the automatically selected step equals the smallest entry of the fixed
ascending ladder that is strictly greater than `(end − start) / 10`,
encoded as whole seconds with an `s` suffix; in particular
start = 2017-07-13T20:10:30.781Z, end = 2017-07-13T20:15:00.781Z yields
step `30s` (the two instants are identified by their RFC 3339 rendering,
proved alongside). -/
theorem defaultStepStr_ladder (startNs endNs : Nat) (hle : startNs ≤ endNs)
    (hlt : (endNs - startNs) / 10 < 30 * 24 * 3600 * nsPerSecond) :
    (∃ s ∈ stepLadder, (endNs - startNs) / 10 < s ∧
      (∀ s' ∈ stepLadder, (endNs - startNs) / 10 < s' → s ≤ s') ∧
      defaultStepStr startNs endNs = toString (s / nsPerSecond) ++ "s") ∧
    defaultStepStr 1499976630781000000 1499976900781000000 = "30s" ∧
    formatRFC3339Nano 0 1499976630781000000 = "2017-07-13T20:10:30.781Z" ∧
    formatRFC3339Nano 0 1499976900781000000 = "2017-07-13T20:15:00.781Z" := by
  obtain ⟨hm, hgt, hmin⟩ := autoStepNs_of_lt_max _ hlt
  exact ⟨⟨autoStepNs ((endNs - startNs) / 10), hm, hgt, hmin, rfl⟩,
    by decide, by decide, by decide⟩

/-- Witness for `defaultStepStr_ladder` at the spec's example range. -/
theorem defaultStepStr_ladder_witness :
    defaultStepStr 1499976630781000000 1499976900781000000 = "30s" :=
  (defaultStepStr_ladder 1499976630781000000 1499976900781000000
    (by norm_num) (by norm_num [nsPerSecond])).2.1

/-- Claim C9 — When no explicit step is given and `(end − start) / 10` is at
least the largest ladder entry (30 days), the selected step is the raw
computed `(end − start) / 10` itself, truncated to whole seconds, rather
than a value chosen from the ladder. -/
theorem defaultStepStr_beyond_ladder (startNs endNs : Nat) (hle : startNs ≤ endNs)
    (h : 30 * 24 * 3600 * nsPerSecond ≤ (endNs - startNs) / 10) :
    defaultStepStr startNs endNs =
      toString ((endNs - startNs) / 10 / nsPerSecond) ++ "s" := by
  simp only [defaultStepStr]
  rw [autoStepNs_of_ge_max _ h]

/-- Witness for `defaultStepStr_beyond_ladder` at a 300-day range. -/
theorem defaultStepStr_beyond_ladder_witness :
    defaultStepStr 0 25920000000000000 = "2592000s" := by
  rw [defaultStepStr_beyond_ladder 0 25920000000000000 (by norm_num)
    (by norm_num [nsPerSecond])]
  decide

/-! ### Claim theorems: status classification -/

/-- Claim C5 (code bug) — For an HTTP 503 response with a non-empty body and
the global-backend flag unset, `checkResponse` panics with
`service unavailable: <body>`, echoing the body, and not with the generic
`server failed with status: ...` form that the design document and the
repository's own test `TestGlobalFlagHTTP503ErrorHandling` expect. -/
theorem checkResponse_503_body_echoed :
    checkResponse false none 503 "503 Service Unavailable" (.ok "service unavailable") =
      some "service unavailable: service unavailable" ∧
    checkResponse false none 503 "503 Service Unavailable" (.ok "service unavailable") ≠
      some "server failed with status: 503 Service Unavailable (503)" := by
  exact ⟨by decide, by decide⟩

/-! ### Claim theorems: table rendering -/

/-- Claim C3 — For table rendering of a vector result without an explicit
column list, the label columns are exactly the sorted, duplicate-free
union of all label names seen across all vector elements, with the two
reserved columns `__timestamp__` and `__value__` appended after them; and
a row whose element lacks one of the label columns prints an empty field
in that column. -/
theorem vectorTable_columns (sep : String) (offsetSec : Int) (elems : List VectorElem) :
    (∃ ls, (vectorTable "" offsetSec elems).1 = ls ++ [timestampKey, valueKey] ∧
        ls.Sorted (· ≤ ·) ∧ ls.Nodup ∧
        (∀ k, k ∈ ls ↔ ∃ el ∈ elems, k ∈ el.metric.map Prod.fst)) ∧
    (∀ el ∈ elems, ∀ k, (∀ v, (k, v) ∉ el.metric) → k ≠ timestampKey → k ≠ valueKey →
        printRow sep [k] (vectorRow offsetSec el) = "") := by
  have hfm : ∀ c : List String,
      elems.foldl (fun s el => collectKeys s el.metric) c =
        (elems.map (·.metric)).foldl collectKeys c :=
    fun c => (List.foldl_map (·.metric) collectKeys elems c).symm
  have hbase : buildColumnSet "" (elems.map (·.metric)) =
      (elems.map (·.metric)).foldl collectKeys [] := by
    unfold buildColumnSet
    rw [if_neg (by simp)]
  constructor
  · refine ⟨makeColumns (elems.foldl (fun s el => collectKeys s el.metric)
      (buildColumnSet "" (elems.map (·.metric)))), ?_, makeColumns_sorted _, ?_, ?_⟩
    · simp [vectorTable, vectorAllColumns]
    · apply nodup_makeColumns
      rw [hfm, hbase]
      exact nodup_foldl_collectKeys _ _ (nodup_foldl_collectKeys _ _ List.nodup_nil)
    · intro k
      rw [mem_makeColumns, hfm, hbase, mem_foldl_collectKeys, mem_foldl_collectKeys]
      constructor
      · rintro ((h | ⟨m, hm, hk⟩) | ⟨m, hm, hk⟩)
        · cases h
        · obtain ⟨el, hel, rfl⟩ := List.mem_map.mp hm
          exact ⟨el, hel, hk⟩
        · obtain ⟨el, hel, rfl⟩ := List.mem_map.mp hm
          exact ⟨el, hel, hk⟩
      · rintro ⟨el, hel, hk⟩
        exact Or.inr ⟨el.metric, List.mem_map.mpr ⟨el, hel, rfl⟩, hk⟩
  · intro el hel k hk hts hval
    have hrow : vectorRow offsetSec el k = none := by
      unfold vectorRow
      rw [rowOfLabels_not_mem _ _ _ hk]
      simp [rowInsert, emptyRow, hts, hval]
    show String.intercalate sep ([k].map fun c => ((vectorRow offsetSec el) c).getD "") = ""
    rw [List.map_cons, List.map_nil, hrow]
    rfl

/-- Witness for `vectorTable_columns`: in the two-element example with
label sets `{a, b}` and `{b, c}`, the first element has no `c` label and
prints an empty field in column `c`. -/
theorem vectorTable_columns_witness :
    printRow " " ["c"]
      (vectorRow 0 { metric := [("a", "1"), ("b", "2")], timestampMs := 1499976630781,
                     value := "0" }) = "" := by
  refine (vectorTable_columns " " 0 vecElems).2 _ ?_ "c" ?_ (by decide) (by decide)
  · simp [vecElems]
  · intro v hv
    simp only [List.mem_cons, List.not_mem_nil, or_false, Prod.mk.injEq] at hv
    rcases hv with ⟨h, _⟩ | ⟨h, _⟩ <;> exact absurd h (by decide)

/-! ### Fold lemmas for the matrix pivot -/

theorem inner_fold_fst (stepNs offsetSec : Int) (vs : List SamplePair) :
    ∀ (s0 : List String) (r0 : String → Option String),
      (vs.foldl (fun p v =>
          (setInsert p.1 (timeColumnFromTS stepNs offsetSec (msToNs v.timestampMs)),
           rowInsert p.2 (timeColumnFromTS stepNs offsetSec (msToNs v.timestampMs)) v.value))
        (s0, r0)).1 =
      vs.foldl (fun s v => setInsert s (timeColumnFromTS stepNs offsetSec (msToNs v.timestampMs))) s0 := by
  induction vs with
  | nil => intro s0 r0; rfl
  | cons v t ih => intro s0 r0; exact ih _ _

theorem matrixFold_fst (stepNs offsetSec : Int) (el : MatrixSeries)
    (acc : List String × List (String → Option String)) :
    (matrixFold stepNs offsetSec acc el).1 =
      el.values.foldl
        (fun s v => setInsert s (timeColumnFromTS stepNs offsetSec (msToNs v.timestampMs)))
        acc.1 := by
  simp only [matrixFold]
  exact inner_fold_fst stepNs offsetSec el.values acc.1 _

theorem matrixFold_snd_length (stepNs offsetSec : Int) (el : MatrixSeries)
    (acc : List String × List (String → Option String)) :
    ((matrixFold stepNs offsetSec acc el).2).length = acc.2.length + 1 := by
  simp only [matrixFold]
  induction el.values generalizing acc with
  | nil => simp
  | cons v t ih => simpa using ih (acc.1, rowOfLabels el.metric emptyRow)

theorem matrixFold_rows_length (stepNs offsetSec : Int) (m : List MatrixSeries) :
    ∀ acc : List String × List (String → Option String),
      ((m.foldl (matrixFold stepNs offsetSec) acc).2).length = acc.2.length + m.length := by
  induction m with
  | nil => intro acc; simp
  | cons el t ih =>
    intro acc
    rw [List.foldl_cons, ih, matrixFold_snd_length]
    simp
    omega

theorem matrixFold_fst_outer (stepNs offsetSec : Int) (m : List MatrixSeries) :
    ∀ acc : List String × List (String → Option String),
      (m.foldl (matrixFold stepNs offsetSec) acc).1 =
        m.foldl (fun s el => el.values.foldl
          (fun s v => setInsert s (timeColumnFromTS stepNs offsetSec (msToNs v.timestampMs))) s)
          acc.1 := by
  induction m with
  | nil => intro acc; rfl
  | cons el t ih =>
    intro acc
    rw [List.foldl_cons, List.foldl_cons, ih, matrixFold_fst]

theorem mem_nested_setInsert (stepNs offsetSec : Int) (m : List MatrixSeries) :
    ∀ (s0 : List String) (x : String),
      x ∈ m.foldl (fun s el => el.values.foldl
          (fun s v => setInsert s (timeColumnFromTS stepNs offsetSec (msToNs v.timestampMs))) s)
          s0 ↔
        x ∈ s0 ∨ ∃ el ∈ m, ∃ v ∈ el.values,
          x = timeColumnFromTS stepNs offsetSec (msToNs v.timestampMs) := by
  induction m with
  | nil => simp
  | cons el t ih =>
    intro s0 x
    rw [List.foldl_cons, ih, mem_foldl_setInsert]
    constructor
    · rintro ((h | ⟨v, hv, hx⟩) | ⟨el', hel', v, hv, hx⟩)
      · exact Or.inl h
      · exact Or.inr ⟨el, List.mem_cons_self _ _, v, hv, hx⟩
      · exact Or.inr ⟨el', List.mem_cons_of_mem _ hel', v, hv, hx⟩
    · rintro (h | ⟨el', hel', v, hv, hx⟩)
      · exact Or.inl (Or.inl h)
      · rcases List.mem_cons.mp hel' with rfl | hel'
        · exact Or.inl (Or.inr ⟨v, hv, hx⟩)
        · exact Or.inr ⟨el', hel', v, hv, hx⟩

theorem nodup_nested_setInsert (stepNs offsetSec : Int) (m : List MatrixSeries) :
    ∀ s0 : List String, s0.Nodup →
      (m.foldl (fun s el => el.values.foldl
        (fun s v => setInsert s (timeColumnFromTS stepNs offsetSec (msToNs v.timestampMs))) s)
        s0).Nodup := by
  induction m with
  | nil => exact fun s0 h => h
  | cons el t ih =>
    intro s0 h
    exact ih _ (nodup_foldl_setInsert _ _ _ h)

/-- Claim C4 — For table rendering of a matrix result, each series
contributes exactly one row; each sample timestamp, truncated down to the
configured step size and formatted as RFC 3339 in the configured time zone
(`timeColumnFromTS`), becomes a column, with identical truncated
timestamps de-duplicated into one column; the column order is the sorted
label columns (or the explicit column list) followed by the sorted,
duplicate-free timestamp columns.  Truncation really rounds an instant
down to a multiple of the step size. -/
theorem matrixTable_pivot (columns : String) (stepNs offsetSec : Int) (m : List MatrixSeries)
    (hstep : 0 < stepNs) :
    ((matrixTable columns stepNs offsetSec m).2).length = m.length ∧
    (∃ labelCols tsCols,
      (matrixTable columns stepNs offsetSec m).1 = labelCols ++ tsCols ∧
      (columns = "" → labelCols.Sorted (· ≤ ·) ∧ labelCols.Nodup ∧
        (∀ k, k ∈ labelCols ↔ ∃ el ∈ m, k ∈ el.metric.map Prod.fst)) ∧
      (columns ≠ "" → labelCols = columns.splitOn ",") ∧
      tsCols.Sorted (· ≤ ·) ∧ tsCols.Nodup ∧
      (∀ x, x ∈ tsCols ↔ ∃ el ∈ m, ∃ v ∈ el.values,
          x = timeColumnFromTS stepNs offsetSec (msToNs v.timestampMs))) ∧
    (∀ tNs : Int, truncateTime stepNs tNs ≤ tNs ∧
        tNs - truncateTime stepNs tNs < stepNs ∧
        (truncateTime stepNs tNs + unixToInternalNs) % stepNs = 0) := by
  refine ⟨?_, ?_, ?_⟩
  · show ((m.foldl (matrixFold stepNs offsetSec) ([], [])).2).length = m.length
    rw [matrixFold_rows_length]
    simp
  · refine ⟨(if columns ≠ "" then columns.splitOn "," else
        makeColumns (buildColumnSet columns (m.map (·.metric)))),
      makeColumns ((m.foldl (matrixFold stepNs offsetSec) ([], [])).1),
      ?_, ?_, ?_, makeColumns_sorted _, ?_, ?_⟩
    · rfl
    · intro hc
      subst hc
      rw [if_neg (by simp)]
      refine ⟨makeColumns_sorted _, ?_, ?_⟩
      · apply nodup_makeColumns
        unfold buildColumnSet
        rw [if_neg (by simp)]
        exact nodup_foldl_collectKeys _ _ List.nodup_nil
      · intro k
        rw [mem_makeColumns]
        unfold buildColumnSet
        rw [if_neg (by simp), mem_foldl_collectKeys]
        constructor
        · rintro (h | ⟨lm, hlm, hk⟩)
          · cases h
          · obtain ⟨el, hel, rfl⟩ := List.mem_map.mp hlm
            exact ⟨el, hel, hk⟩
        · rintro ⟨el, hel, hk⟩
          exact Or.inr ⟨el.metric, List.mem_map.mpr ⟨el, hel, rfl⟩, hk⟩
    · intro hc
      rw [if_pos hc]
    · apply nodup_makeColumns
      rw [matrixFold_fst_outer]
      exact nodup_nested_setInsert _ _ _ _ List.nodup_nil
    · intro x
      rw [mem_makeColumns, matrixFold_fst_outer, mem_nested_setInsert]
      simp
  · intro tNs
    have hd : stepNs ≠ 0 := ne_of_gt hstep
    unfold truncateTime
    rw [if_neg (by omega)]
    refine ⟨?_, ?_, ?_⟩
    · have := Int.emod_nonneg (tNs + unixToInternalNs) hd
      omega
    · have := Int.emod_lt_of_pos (tNs + unixToInternalNs) hstep
      omega
    · have heq : tNs - (tNs + unixToInternalNs) % stepNs + unixToInternalNs =
          stepNs * ((tNs + unixToInternalNs) / stepNs) := by
        have := Int.ediv_add_emod (tNs + unixToInternalNs) stepNs
        omega
      rw [heq, Int.mul_emod_right]

/-- Witness for `matrixTable_pivot` at the example series with explicit
columns and a 300 s step: one row, and the first sample timestamp is
truncated from 20:10:30 down to the 20:10:00 step boundary. -/
theorem matrixTable_pivot_witness :
    ((matrixTable "region" 300000000000 0 matSeries).2).length = 1 ∧
    truncateTime 300000000000 (msToNs 1500754230000) = msToNs 1500754200000 := by
  have h := matrixTable_pivot "region" 300000000000 0 matSeries (by norm_num)
  refine ⟨?_, by decide⟩
  rw [h.1]
  decide

/-! ### Claim theorems: credential resolution -/

/-- Witness for `normalizeAuth_scheme_exclusivity` at a token-scheme
input: password and username are cleared, the scope is preserved. -/
theorem normalizeAuth_scheme_exclusivity_witness :
    c2AuthNorm.password = "" ∧ c2AuthNorm.username = "" ∧
    c2AuthNorm.scope = c2Auth.scope := by
  have h := (normalizeAuth_scheme_exclusivity "token" c2Auth c2AuthNorm rfl).2.1 rfl
  exact ⟨h.1, h.2.1, h.2.2.2.2.2.2.2.2.1⟩

/-- Claim C6 (counterexample) — Under the token scheme, a raw input with
both username and user-id set is not rejected: the scheme switch clears
both fields before the ambiguity check runs, and resolution reaches the
keystone `Authenticate` call instead of failing with a
`ConfigurationError`. -/
theorem fetchToken_token_both_user_fields_no_error :
    c6State.auth.username = "u" ∧ c6State.auth.userID = "i" ∧
    fetchToken env0 c6State =
      .authenticate { auth := { blankAuth with tokenID := "T" },
                      maiaURL := "", scopedDomain := "", authType := "token" } := by
  exact ⟨by decide, by decide, by decide⟩

/-- For the password scheme, and for the application-credential scheme
without a credential ID, a username/user-id conflict makes the
normalization block fail. -/
theorem normalizeAuth_user_conflict (t : String) (a : AuthOptions)
    (ha : a.username ≠ "") (hb : a.userID ≠ "")
    (hty : t = "password" ∨ (t = "v3applicationcredential" ∧ a.applicationCredentialID = "")) :
    ∃ msg, normalizeAuth t a = .error msg := by
  rcases hty with rfl | ⟨rfl, hid⟩
  · by_cases hp : a.password = ""
    · exact ⟨"you must specify --os-password",
        by simp [normalizeAuth, schemeNormalize, Except.bind, hp]⟩
    · exact ⟨"use either --os-user-id or --os-user-name but not both",
        by simp [normalizeAuth, schemeNormalize, ambiguityChecks, Except.bind, hp, ha, hb]⟩
  · by_cases hsec : a.applicationCredentialSecret = ""
    · exact ⟨"you must specify --os-application-credential-secret",
        by simp [normalizeAuth, schemeNormalize, Except.bind, hsec]⟩
    · exact ⟨"use either --os-user-id or --os-user-name but not both",
        by simp [normalizeAuth, schemeNormalize, ambiguityChecks, Except.bind, hsec, hid, ha, hb]⟩

/-- Claim C6 (amended) — If both username and user-id are set when
resolution runs (no fast path), credential resolution fails with a
`ConfigurationError` before any network call for the password scheme and
for the v3applicationcredential scheme without an application-credential
ID; for the token scheme (and for v3applicationcredential with a
credential ID) normalization clears both fields instead and no such error
is raised. -/
theorem fetchToken_username_userid_config_error (env : Env) (st : ClientState)
    (ha : (expandAuth env st).username ≠ "") (hb : (expandAuth env st).userID ≠ "")
    (hfast : ¬((expandAuth env st).tokenID ≠ "" ∧ st.maiaURL ≠ ""))
    (hty : defaultAuthType st.authType = "password" ∨
      (defaultAuthType st.authType = "v3applicationcredential" ∧
       (expandAuth env st).applicationCredentialID = "")) :
    (fetchToken env st).isConfigError = true := by
  obtain ⟨msg, hm⟩ :=
    normalizeAuth_user_conflict (defaultAuthType st.authType) (expandAuth env st) ha hb hty
  unfold fetchToken
  rw [if_neg hfast, hm]
  rfl

/-- Witness for `fetchToken_username_userid_config_error` at a concrete
password-scheme state. -/
theorem fetchToken_username_userid_config_error_witness :
    (fetchToken env0 pwdBothState).isConfigError = true :=
  fetchToken_username_userid_config_error env0 pwdBothState
    (by decide) (by decide) (by decide) (Or.inl (by decide))

/-- Claim C8 (counterexample) — Even when a token and a backend URL are both
known, `fetchToken` is not a pure no-op on the credential fields: the
prelude copies the scoped-domain flag into the scope (and expands
`$OS_...` placeholders) before the fast-path check, so the credentials
change. -/
theorem fetchToken_fast_path_mutates_scope :
    fetchToken env0 c8State = .fastPath { c8State with auth := c8Expanded } ∧
    c8Expanded ≠ c8State.auth := by
  exact ⟨by decide, by decide⟩

/-- Claim C8 (amended) — If both a bearer token and a backend URL are known
after the prelude, resolution is skipped: no scheme validation runs, the
keystone `Authenticate` call is never reached, and the credential fields
are exactly the prelude-expanded ones; when no scoped-domain flag is set
and no `$OS_...` placeholder value is present, the credential fields are
completely unchanged. -/
theorem fetchToken_fast_path (env : Env) (st : ClientState)
    (h1 : (expandAuth env st).tokenID ≠ "") (h2 : st.maiaURL ≠ "") :
    fetchToken env st = .fastPath { st with auth := expandAuth env st } ∧
    (st.scopedDomain = "" → st.auth.password ≠ "$OS_PASSWORD" →
     st.auth.tokenID ≠ "$OS_TOKEN" →
     st.auth.applicationCredentialSecret ≠ "$OS_APPLICATION_CREDENTIAL_SECRET" →
     fetchToken env st = .fastPath st) := by
  constructor
  · unfold fetchToken
    rw [if_pos ⟨h1, h2⟩]
  · intro hd hp ht hs
    have he : expandAuth env st = st.auth := by
      simp [expandAuth, hd, hp, ht, hs]
    unfold fetchToken
    rw [if_pos ⟨h1, h2⟩, he]

/-- Witness for `fetchToken_fast_path` at a concrete state: the fast path
returns the state unchanged. -/
theorem fetchToken_fast_path_witness :
    fetchToken env0 c8WitState = .fastPath c8WitState :=
  (fetchToken_fast_path env0 c8WitState (by decide) (by decide)).2
    rfl (by decide) (by decide) (by decide)

/-! ### Claim theorems: plain-text rendering paths -/

/-- Claim C7 (counterexample) — The table rendering path does not reject
non-`value` formats for plain-text responses: `printTable` passes a
plain-text body through verbatim even when the requested format is
`json`. -/
theorem printTable_plaintext_ignores_format :
    printTable (fun _ => .ok []) "text/plain; version=0.0.4" "json" "" " " "BODY" =
      .ok ["BODY"] := by
  rfl

/-- Claim C7 (amended) — For a plain-text content type: the raw-values path
(`printValues`) supports only the `value` format (body passed through
verbatim) and fails any other format with an `UnsupportedFormatError`;
the table path (`printTable`) passes the body through verbatim regardless
of the requested format; and the query-response path
(`printQueryResponse`) rejects plain text as an unsupported content
type. -/
theorem plaintext_rendering_paths
    (pd : String → Except String (List String))
    (pt : String → Except String (List LabelSet))
    (pq : String → Except String QueryValue)
    (et : String → String → Except String String)
    (ct fmt tpl columns sep body : String) (stepNs offsetSec : Int)
    (hct : strHasPrefix ct "text/plain" = true) :
    (eqFold fmt "value" = true → printValues pd ct fmt body = .ok [body]) ∧
    (eqFold fmt "value" = false →
      printValues pd ct fmt body =
        .error ("unsupported --format value for this command: " ++ fmt)) ∧
    printTable pt ct fmt columns sep body = .ok [body] ∧
    printQueryResponse pq et ct fmt tpl columns sep stepNs offsetSec body =
      .error ("unsupported response type from server: " ++ ct) := by
  have hne : ct ≠ storageJSON := by
    intro h
    rw [h] at hct
    exact absurd hct (by decide)
  refine ⟨?_, ?_, ?_, ?_⟩
  · intro hv
    unfold printValues
    rw [if_neg hne, if_pos hct, if_pos hv]
  · intro hv
    unfold printValues
    rw [if_neg hne, if_pos hct, if_neg (by simp [hv])]
  · unfold printTable
    rw [if_neg hne, if_pos hct]
  · unfold printQueryResponse
    rw [if_neg hne]

/-- Witness for `plaintext_rendering_paths`: a plain-text body in `value`
format is passed through verbatim. -/
theorem plaintext_rendering_paths_witness :
    printValues (fun _ => .ok []) "text/plain" "value" "BODY" = .ok ["BODY"] :=
  (plaintext_rendering_paths (fun _ => .ok []) (fun _ => .ok [])
    (fun _ => .ok (.vector [])) (fun _ _ => .ok "")
    "text/plain" "value" "" "" " " "BODY" 0 0 (by decide)).1 (by decide)

/-! ### Claim theorems: backend URL construction -/

theorem mem_buildQueryParams (params : List (String × ParamValue)) (k v : String) :
    (k, v) ∈ buildQueryParams params ↔
      ((k, ParamValue.str v) ∈ params ∧ v ≠ "") ∨
      ∃ l, (k, ParamValue.strList l) ∈ params ∧ v ∈ l := by
  unfold buildQueryParams
  rw [List.mem_flatMap]
  constructor
  · rintro ⟨⟨k', pv⟩, hp, hkv⟩
    cases pv with
    | str s =>
      dsimp only at hkv
      by_cases hs : s = ""
      · subst hs
        simp at hkv
      · rw [if_neg hs] at hkv
        simp only [List.mem_singleton, Prod.mk.injEq] at hkv
        obtain ⟨rfl, rfl⟩ := hkv
        exact Or.inl ⟨hp, hs⟩
    | strList l =>
      dsimp only at hkv
      simp only [List.mem_map, Prod.mk.injEq] at hkv
      obtain ⟨s, hs, rfl, rfl⟩ := hkv
      exact Or.inr ⟨l, hp, hs⟩
  · rintro (⟨hp, hv⟩ | ⟨l, hp, hv⟩)
    · refine ⟨(k, .str v), hp, ?_⟩
      dsimp only
      rw [if_neg hv]
      exact List.mem_singleton.mpr rfl
    · refine ⟨(k, .strList l), hp, ?_⟩
      exact List.mem_map.mpr ⟨v, hv, rfl⟩

/-- Claim C10 — For every backend request URL built from a parameter map, a
string-valued parameter whose value is the empty string is omitted from
the query entirely, while list-valued parameters contribute one query
entry per element; hence the blank step of a range query without an
explicit step never appears as a query parameter. -/
theorem buildURL_query_membership (baseURL federateURL path : String)
    (params : List (String × ParamValue)) (k v : String) :
    ((k, v) ∈ (buildURL baseURL federateURL path params).query ↔
      ((k, ParamValue.str v) ∈ params ∧ v ≠ "") ∨
      ∃ l, (k, ParamValue.strList l) ∈ params ∧ v ∈ l) ∧
    (∀ q s e t w : String,
      ("step", w) ∉ (buildURL baseURL federateURL "/api/v1/query_range"
        (queryRangeParams q s e "" t)).query) := by
  refine ⟨mem_buildQueryParams params k v, ?_⟩
  intro q s e t w hmem
  rw [show (buildURL baseURL federateURL "/api/v1/query_range"
        (queryRangeParams q s e "" t)).query =
      buildQueryParams (queryRangeParams q s e "" t) from rfl,
    mem_buildQueryParams] at hmem
  rcases hmem with ⟨hp, hw⟩ | ⟨l, hp, _⟩
  · simp only [queryRangeParams, List.mem_cons, List.not_mem_nil, or_false,
      Prod.mk.injEq, ParamValue.str.injEq] at hp
    rcases hp with ⟨h, _⟩ | ⟨h, _⟩ | ⟨h, _⟩ | ⟨_, h⟩ | ⟨h, _⟩
    · exact absurd h (by decide)
    · exact absurd h (by decide)
    · exact absurd h (by decide)
    · exact hw h
    · exact absurd h (by decide)
  · simp [queryRangeParams] at hp

/-- Witness for `buildURL_query_membership`: the query expression appears
in the query string of a range query with a blank step. -/
theorem buildURL_query_membership_witness :
    ("query", "up") ∈ (buildURL "http://prom" "http://prom" "/api/v1/query_range"
      (queryRangeParams "up" "1" "2" "" "")).query :=
  ((buildURL_query_membership "http://prom" "http://prom" "/api/v1/query_range"
    (queryRangeParams "up" "1" "2" "" "") "query" "up").1).mpr
    (Or.inl ⟨by decide, by decide⟩)

end Maia
